import Mathlib

/-!
Verification of the model-conversion utility in `src/app.py`.

The program is a thin glue layer: a configuration loader (`Config.from_env`),
a repository bootstrapper (`setup_repository` with helper `_get_ref_type`),
a conversion invoker (`convert_model`) and an uploader (`upload_model`).
Each external effect (identity-service lookup, archive probe and download,
subprocess run, remote push, directory removal) is modelled as an explicit
oracle value passed to the embedded function, and filesystem state relevant
to a function is passed and returned explicitly.  Python string truthiness
(`None` and the empty string are falsy) is modelled by `truthy`.
-/

/-- Python truthiness for an optional string: `None` and `""` are falsy. -/
def truthy : Option String → Bool
  | none => false
  | some s => !(s == "")

/-- Python `x or y` on optional strings: returns `x` when `x` is truthy,
otherwise `y` (which may itself be falsy). -/
def orElsePy (x y : Option String) : Option String :=
  if truthy x then x else y

/-- The `Config` dataclass of `src/app.py`.  `repo_path` stores the string
form of `Path("./transformers.js")`, which `pathlib` normalises to
`transformers.js`. -/
structure Config where
  hf_token : String
  hf_username : String
  transformers_version : String := "3.0.0"
  hf_base_url : String := "https://huggingface.co"
  transformers_base_url : String := "https://github.com/xenova/transformers.js/archive/refs"
  repo_path : String := "transformers.js"
deriving Repr, DecidableEq

/-- The ambient inputs read by `Config.from_env`: the system secret
`st.secrets.get("HF_TOKEN")`, the session value
`st.session_state.get("user_hf_token")`, the environment variable
`os.getenv("SPACE_AUTHOR_NAME")`, and the identity service `whoami`
(given a token, it either raises — `Except.error` with the exception text —
or returns the account name). -/
structure EnvInputs where
  hf_token_secret : Option String
  user_hf_token : Option String
  space_author_name : Option String
  whoami : Option String → Except String String

/-- Outcome of `Config.from_env`: a configuration, the `ValueError` it
raises when no token resolves, or an exception propagated from `whoami`. -/
inductive FromEnvOutcome where
  | ok (cfg : Config)
  | valueError (msg : String)
  | exn (msg : String)
deriving Repr, DecidableEq

/-- `Config.from_env` of `src/app.py`, returning the outcome together with
the number of identity-service (`whoami`) calls made.  The source resolves
the username first — calling `whoami` with the user token when that token is
truthy, otherwise taking `SPACE_AUTHOR_NAME` when truthy, otherwise calling
`whoami` with the system token — then computes
`hf_token = user_token or system_token` and raises
`ValueError("HF_TOKEN must be set")` when that is falsy. -/
def Config.from_env (env : EnvInputs) : FromEnvOutcome × Nat :=
  if truthy env.user_hf_token then
    match env.whoami env.user_hf_token with
    | .error e => (.exn e, 1)
    | .ok name =>
      let tok := orElsePy env.user_hf_token env.hf_token_secret
      if truthy tok then
        (.ok { hf_token := tok.getD "", hf_username := name }, 1)
      else
        (.valueError "HF_TOKEN must be set", 1)
  else if truthy env.space_author_name then
    let tok := orElsePy env.user_hf_token env.hf_token_secret
    if truthy tok then
      (.ok { hf_token := tok.getD "", hf_username := env.space_author_name.getD "" }, 0)
    else
      (.valueError "HF_TOKEN must be set", 0)
  else
    match env.whoami env.hf_token_secret with
    | .error e => (.exn e, 1)
    | .ok name =>
      let tok := orElsePy env.user_hf_token env.hf_token_secret
      if truthy tok then
        (.ok { hf_token := tok.getD "", hf_username := name }, 1)
      else
        (.valueError "HF_TOKEN must be set", 1)

/-- No token resolves from either source: both the session token and the
system secret are falsy. -/
def noTokenResolves (env : EnvInputs) : Prop :=
  truthy env.user_hf_token = false ∧ truthy env.hf_token_secret = false

/-- Outcome of `subprocess.run` as seen by `convert_model`: the subprocess
launched and terminated with an exit code and captured stderr text, or an
exception was raised during launch (its `str` text recorded). -/
inductive SubprocOutcome where
  | completed (returncode : Int) (stderr : String)
  | launchError (msg : String)
deriving Repr, DecidableEq

/-- `ModelConverter.convert_model` of `src/app.py`.  The subprocess outcome
is the oracle argument; the function never raises (the source wraps the
whole body in `try/except`) and returns the `(success, stderr-or-message)`
pair of the source. -/
def convert_model (run : SubprocOutcome) : Bool × Option String :=
  match run with
  | .launchError e => (false, some e)
  | .completed rc stderr =>
    if rc ≠ 0 then (false, some stderr) else (true, some stderr)

/-- `ModelConverter._get_ref_type` of `src/app.py`.  The oracle is the
outcome of `urlopen` on the tags archive URL: `.ok code` when the request
returned with HTTP status `code`, `.error e` when it raised.  The source
returns the string `"tags"` exactly when the probe returned code 200 and
the string `"heads"` otherwise; the `try/except` makes it total. -/
def get_ref_type (probe : Except String Nat) : String :=
  match probe with
  | .ok code => if code == 200 then "tags" else "heads"
  | .error _ => "heads"

deriving instance DecidableEq for Except

/-- Oracles for `setup_repository`: the tag-archive probe, the result of
`urlretrieve` (`none` means success; a failed download may or may not leave
a partial local file, which the `finally` unlink removes either way thanks
to `missing_ok=True`), and the result of `_extract_archive` (`none` means
the archive was extracted and the folder renamed into the checkout path). -/
structure SetupEnv where
  probe : Except String Nat
  downloadResult : Option String
  extractResult : Option String
deriving Repr, DecidableEq

/-- The filesystem state `setup_repository` touches: whether the checkout
(`Config.repo_path`) exists and whether the downloaded archive file
(`./transformers_<version>.tar.gz`) exists. -/
structure FsState where
  repoExists : Bool
  archiveExists : Bool
deriving Repr, DecidableEq

/-- Network and mutating filesystem operations performed by
`setup_repository`, in order.  The initial `repo_path.exists()` test is a
read-only check and is not an operation in this sense. -/
inductive SetupOp where
  | probeCall
  | downloadCall
  | extractCall
  | unlinkCall
deriving Repr, DecidableEq

/-- `ModelConverter.setup_repository` of `src/app.py`.  Returns the raised
exception or `.ok ()`, the final filesystem state, and the trace of network
and mutating filesystem operations.  When the checkout already exists the
source returns at once; otherwise it probes the tags URL (inside
`_get_ref_type`, which never raises), downloads the archive, extracts it
(renaming the extracted folder into the checkout path), wraps any download
or extraction exception into `RuntimeError("Failed to setup repository: ...")`,
and in a `finally` block unlinks the archive file with `missing_ok=True`. -/
def setup_repository (env : SetupEnv) (s : FsState) :
    Except String Unit × FsState × List SetupOp :=
  if s.repoExists then
    (.ok (), s, [])
  else
    match env.downloadResult with
    | some e =>
      (.error ("Failed to setup repository: " ++ e),
       { s with archiveExists := false },
       [.probeCall, .downloadCall, .unlinkCall])
    | none =>
      match env.extractResult with
      | some e =>
        (.error ("Failed to setup repository: " ++ e),
         { s with archiveExists := false },
         [.probeCall, .downloadCall, .extractCall, .unlinkCall])
      | none =>
        (.ok (),
         { repoExists := true, archiveExists := false },
         [.probeCall, .downloadCall, .extractCall, .unlinkCall])

/-- Index of the last occurrence of a dot in a character list, if any. -/
def rfindDot : List Char → Option Nat
  | [] => none
  | c :: cs =>
    match rfindDot cs with
    | some i => some (i + 1)
    | none => if c == '.' then some 0 else none

/-- Python `pathlib` suffix of a file name: the substring from the last dot
when that dot is neither the first nor the last character, and the empty
string otherwise (so `"model.onnx"` gives `".onnx"`, while `".onnx"` and
`"name."` give `""`). -/
def pySuffix (name : String) : String :=
  match rfindDot name.toList with
  | none => ""
  | some i =>
    if 0 < i ∧ i < name.toList.length - 1 then String.mk (name.toList.drop i) else ""

/-- The per-model output directory as `upload_model` observes it: the names
of its top-level regular files, and its immediate subdirectories, each with
the names of the files inside it.  Nested content deeper than one level is
irrelevant to the source and stays inside the subdirectory lists. -/
structure Dir where
  files : List String
  dirs : List (String × List String)
deriving Repr, DecidableEq

/-- The file names inside the `onnx` subdirectory, empty when it is absent. -/
def Dir.onnxContents (d : Dir) : List String :=
  match d.dirs.find? (fun p => p.1 == "onnx") with
  | some p => p.2
  | none => []

/-- Effect of `onnx_folder_path.mkdir(exist_ok=True)` when the parent exists
and no top-level regular file is named `onnx`: create the empty `onnx`
subdirectory unless it is already present. -/
def ensureOnnxDir (d : Dir) : Dir :=
  if (d.dirs.map Prod.fst).contains "onnx" then d
  else { d with dirs := d.dirs ++ [("onnx", [])] }

/-- The top-level regular files the move loop of `upload_model` relocates:
those whose `pathlib` suffix is `.onnx`. -/
def movedOnnxFiles (d : Dir) : List String :=
  d.files.filter (fun f => pySuffix f == ".onnx")

/-- Effect of the move loop of `upload_model`: every top-level regular file
with suffix `.onnx` is renamed into the `onnx` subdirectory (`Path.rename`
replaces a same-named file already there); nothing else changes.  The loop
only inspects `model_folder_path.iterdir()` entries that satisfy
`is_file()`, so subdirectories and their contents are untouched. -/
def moveOnnxFiles (d : Dir) : Dir :=
  { files := d.files.filter (fun f => !(pySuffix f == ".onnx")),
    dirs := d.dirs.map (fun p =>
      (p.1,
       if p.1 == "onnx" then
         p.2.filter (fun f => !((movedOnnxFiles d).contains f)) ++ movedOnnxFiles d
       else p.2)) }

/-- One call to `HfApi.upload_folder` as made by `upload_model`, recording
its keyword arguments and the files inside the pushed folder at call time. -/
structure PushCall where
  folder_path : String
  repo_id : String
  path_in_repo : String
  contents : List String
deriving Repr, DecidableEq

/-- String form of `self.config.repo_path / "models" / input_model_id`. -/
def model_folder_path (cfg : Config) (input_model_id : String) : String :=
  cfg.repo_path ++ "/models/" ++ input_model_id

/-- String form of `model_folder_path / "onnx"`. -/
def onnx_folder_path (cfg : Config) (input_model_id : String) : String :=
  model_folder_path cfg input_model_id ++ "/onnx"

/-- `ModelConverter.upload_model` of `src/app.py`.  `d` is the state of the
per-model output directory (`none` when it does not exist), `push` is the
`HfApi.upload_folder` oracle, and `rmtreeSucceeds` says whether the final
`shutil.rmtree(model_folder_path, ignore_errors=True)` manages to remove the
directory — with `ignore_errors=True` a removal failure (for instance a
permission error) is swallowed inside the library and the directory remains.
Returns the value of the source function (`none` on success, the exception
text on failure), the final state of the per-model directory, and the list
of push calls made.  The `mkdir(exist_ok=True)` raises when the parent
directory is missing, and also when a top-level regular file named `onnx`
occupies the name (`exist_ok` only tolerates an existing directory); the
messages stand in for the `str` of those exceptions. -/
def upload_model (cfg : Config) (input_model_id : String) (d : Option Dir)
    (push : PushCall → Except String Unit) (rmtreeSucceeds : Bool) :
    Option String × Option Dir × List PushCall :=
  let body : Option String × Option Dir × List PushCall :=
    match d with
    | none =>
      (some ("No such file or directory: " ++ onnx_folder_path cfg input_model_id),
       none, [])
    | some dd =>
      if dd.files.contains "onnx" then
        (some ("File exists: " ++ onnx_folder_path cfg input_model_id), some dd, [])
      else
        let d2 := moveOnnxFiles (ensureOnnxDir dd)
        let call : PushCall :=
          { folder_path := onnx_folder_path cfg input_model_id,
            repo_id := input_model_id,
            path_in_repo := "onnx",
            contents := d2.onnxContents }
        match push call with
        | .error e => (some e, some d2, [call])
        | .ok _ => (none, some d2, [call])
  (body.1, if rmtreeSucceeds then none else body.2.1, body.2.2)

/-! ### Helper lemmas about the uploader state -/

theorem ensureOnnxDir_files (d : Dir) : (ensureOnnxDir d).files = d.files := by
  unfold ensureOnnxDir
  split <;> rfl

theorem movedOnnxFiles_ensure (d : Dir) :
    movedOnnxFiles (ensureOnnxDir d) = movedOnnxFiles d := by
  unfold movedOnnxFiles
  rw [ensureOnnxDir_files]

theorem mem_movedOnnxFiles (d : Dir) (f : String) :
    f ∈ movedOnnxFiles d ↔ (f ∈ d.files ∧ pySuffix f = ".onnx") := by
  unfold movedOnnxFiles
  simp [List.mem_filter]

theorem find?_onnx_map (moved : List String) (l : List (String × List String)) :
    (l.map (fun p =>
        (p.1, if p.1 == "onnx" then p.2.filter (fun f => !(moved.contains f)) ++ moved
              else p.2))).find? (fun p => p.1 == "onnx")
      = (l.find? (fun p => p.1 == "onnx")).map
          (fun p => (p.1, p.2.filter (fun f => !(moved.contains f)) ++ moved)) := by
  rw [List.find?_map]
  have hcomp : ((fun p : String × List String => p.1 == "onnx") ∘
        (fun p : String × List String =>
          (p.1, if p.1 == "onnx" then p.2.filter (fun f => !(moved.contains f)) ++ moved
                else p.2)))
      = (fun p : String × List String => p.1 == "onnx") := rfl
  rw [hcomp]
  cases hf : l.find? (fun p => p.1 == "onnx") with
  | none => rfl
  | some q =>
    have hq : (q.1 == "onnx") = true :=
      List.find?_some (p := fun r : String × List String => r.1 == "onnx") hf
    have he : q.1 = "onnx" := by simpa using hq
    simp [he]

theorem find?_eq_none_of_not_contains (l : List (String × List String))
    (h : (l.map Prod.fst).contains "onnx" = false) :
    l.find? (fun p => p.1 == "onnx") = none := by
  rw [List.find?_eq_none]
  intro p hp hcon
  have hfst : p.1 = "onnx" := by simpa using hcon
  have hni : ¬ ("onnx" ∈ l.map Prod.fst) := by simpa using h
  exact hni (List.mem_map.mpr ⟨p, hp, hfst⟩)

theorem ensureOnnxDir_contains (d : Dir) :
    ((ensureOnnxDir d).dirs.map Prod.fst).contains "onnx" = true := by
  unfold ensureOnnxDir
  split
  · assumption
  · simp

theorem onnxContents_nil_of_not_contains (d : Dir)
    (h : (d.dirs.map Prod.fst).contains "onnx" = false) :
    d.onnxContents = [] := by
  unfold Dir.onnxContents
  rw [find?_eq_none_of_not_contains d.dirs h]

theorem ensureOnnxDir_onnxContents (d : Dir) :
    (ensureOnnxDir d).onnxContents = d.onnxContents := by
  unfold ensureOnnxDir
  split
  · rfl
  · rename_i h
    have hf : d.dirs.find? (fun p => p.1 == "onnx") = none :=
      find?_eq_none_of_not_contains d.dirs (Bool.eq_false_iff.mpr h)
    show Dir.onnxContents _ = Dir.onnxContents _
    unfold Dir.onnxContents
    simp only [List.find?_append, hf]
    rfl

theorem moveOnnxFiles_onnxContents (d : Dir)
    (h : (d.dirs.map Prod.fst).contains "onnx" = true) :
    (moveOnnxFiles d).onnxContents =
      d.onnxContents.filter (fun f => !((movedOnnxFiles d).contains f))
        ++ movedOnnxFiles d := by
  simp only [moveOnnxFiles, Dir.onnxContents]
  rw [find?_onnx_map]
  cases hf : d.dirs.find? (fun p => p.1 == "onnx") with
  | some p => rfl
  | none =>
    exfalso
    have hmem : "onnx" ∈ d.dirs.map Prod.fst := by simpa using h
    obtain ⟨p, hp, hfst⟩ := List.mem_map.mp hmem
    exact (List.find?_eq_none.mp hf p hp) (by simp [hfst])

/-! ### Concrete inputs used by witness and counterexample theorems -/

/-- A configuration with the default paths and URLs. -/
def cfg0 : Config := { hf_token := "tok", hf_username := "user" }

/-- A push oracle for which every `upload_folder` call succeeds. -/
def pushOk : PushCall → Except String Unit := fun _ => .ok ()

/-- A per-model output directory holding one converted artifact, one other
file, and a subdirectory with a nested `.onnx` file. -/
def dirX : Dir :=
  { files := ["model.onnx", "readme.txt"], dirs := [("sub", ["nested.onnx"])] }

/-- A per-model output directory with no top-level `.onnx` file at all. -/
def dirNoOnnx : Dir := { files := ["config.json"], dirs := [] }

/-- A per-model output directory in which a top-level regular file named
`onnx` blocks the subfolder creation while a `.onnx` artifact is present. -/
def dirBlocked : Dir := { files := ["onnx", "model.onnx"], dirs := [] }

/-- A per-model output directory whose only top-level entry is a regular
file named `onnx` (which has no `.onnx` suffix). -/
def dirOnnxFile : Dir := { files := ["onnx"], dirs := [] }

/-- Environment with no token anywhere and no author-name variable; the
identity service rejects the tokenless lookup. -/
def envNoTokenNoAuthor : EnvInputs :=
  { hf_token_secret := none, user_hf_token := none, space_author_name := none,
    whoami := fun _ => .error "401 Unauthorized" }

/-- Environment with no token (the session field holds the falsy empty
string) but with the author-name variable set. -/
def envNoTokenWithAuthor : EnvInputs :=
  { hf_token_secret := none, user_hf_token := some "", space_author_name := some "alice",
    whoami := fun _ => .ok "alice" }

/-! ### Claim theorems -/

/-- C1: for every conversion invocation in which the subprocess launches and
terminates, `convert_model` reports success exactly when the exit code is
zero, and in both the success and the failure case the second component of
the returned pair is the captured stderr text. -/
theorem convert_model_success_iff_zero_exit (rc : Int) (stderr : String) :
    ((convert_model (.completed rc stderr)).1 = true ↔ rc = 0) ∧
    (convert_model (.completed rc stderr)).2 = some stderr := by
  constructor
  · by_cases h : rc = 0 <;> simp [convert_model, h]
  · by_cases h : rc = 0 <;> simp [convert_model, h]

/-- C9: for every exception raised while launching the conversion
subprocess, `convert_model` does not propagate it (the embedding is a total
function mirroring the catch-all `except`): it returns the failure flag with
the exception text as the message. -/
theorem convert_model_launch_error (e : String) :
    convert_model (.launchError e) = (false, some e) := rfl

/-- C5: reference-type resolution is total (the embedding mirrors the
catch-all `except`, so it never raises), returns the tag designator `"tags"`
exactly when the probe succeeds with HTTP 200, and returns the branch
designator `"heads"` in every other case — raised exception or non-200
response. -/
theorem get_ref_type_spec (r : Except String Nat) :
    (get_ref_type r = "tags" ↔ r = .ok 200) ∧
    (get_ref_type r = "tags" ∨ get_ref_type r = "heads") := by
  cases r with
  | error e => simp [get_ref_type]
  | ok c =>
    by_cases h : c = 200
    · subst h; simp [get_ref_type]
    · simp [get_ref_type, h]

/-- C8: bootstrap is idempotent — when the checkout path already exists,
`setup_repository` returns at once with no network or mutating filesystem
operation and the filesystem state unchanged. -/
theorem setup_repository_idempotent (env : SetupEnv) (s : FsState)
    (h : s.repoExists = true) :
    setup_repository env s = (.ok (), s, []) := by
  simp [setup_repository, h]

/-- Witness for C8 at a concrete state with the checkout present. -/
theorem setup_repository_idempotent_witness :
    setup_repository { probe := .ok 200, downloadResult := none, extractResult := none }
        { repoExists := true, archiveExists := true }
      = (.ok (), { repoExists := true, archiveExists := true }, []) :=
  setup_repository_idempotent _ _ rfl

/-- C7: every execution of the bootstrap that reaches the download step
(the checkout is absent) ends with the downloaded archive file absent,
whether the bootstrap returned successfully or raised the wrapped setup
error — the `finally` unlink runs on every such path. -/
theorem setup_repository_archive_removed (env : SetupEnv) (s : FsState)
    (h : s.repoExists = false) :
    ((setup_repository env s).2.1).archiveExists = false := by
  cases hd : env.downloadResult with
  | some e => simp [setup_repository, h, hd]
  | none =>
    cases he : env.extractResult with
    | some e => simp [setup_repository, h, hd, he]
    | none => simp [setup_repository, h, hd, he]

/-- Witness for C7: a concrete failing download still leaves no archive. -/
theorem setup_repository_archive_removed_witness :
    ((setup_repository { probe := .ok 404, downloadResult := some "boom", extractResult := none }
        { repoExists := false, archiveExists := false }).2.1).archiveExists = false :=
  setup_repository_archive_removed _ _ rfl

/-- C2 counterexample: in the concrete missing-token environment with no
author-name variable, `Config.from_env` makes one identity-service call and
propagates its failure instead of raising the missing-token configuration
error — refuting both parts of the claim at this input. -/
theorem from_env_missing_token_cex :
    noTokenResolves envNoTokenNoAuthor ∧
    Config.from_env envNoTokenNoAuthor = (.exn "401 Unauthorized", 1) := by
  exact ⟨⟨rfl, rfl⟩, rfl⟩

/-- C2 (amended): when no token resolves, the behavior of `Config.from_env`
splits on the author-name variable.  If it is truthy, the function raises
the configuration `ValueError` with zero identity-service calls.  If it is
not, the function first makes exactly one identity-service call with the
system token; a failure of that call propagates in place of the
configuration error, and only when the call succeeds is the configuration
`ValueError` raised. -/
theorem from_env_missing_token_behavior (env : EnvInputs)
    (h : noTokenResolves env) :
    (truthy env.space_author_name = true →
      Config.from_env env = (.valueError "HF_TOKEN must be set", 0)) ∧
    (truthy env.space_author_name = false →
      (Config.from_env env).2 = 1 ∧
      ((∃ e, env.whoami env.hf_token_secret = .error e ∧
          (Config.from_env env).1 = .exn e) ∨
       (∃ n, env.whoami env.hf_token_secret = .ok n ∧
          (Config.from_env env).1 = .valueError "HF_TOKEN must be set"))) := by
  obtain ⟨hu, hs⟩ := h
  have htok : truthy (orElsePy env.user_hf_token env.hf_token_secret) = false := by
    simp [orElsePy, hu, hs]
  constructor
  · intro ha
    simp [Config.from_env, hu, ha, htok]
  · intro ha
    cases hw : env.whoami env.hf_token_secret with
    | error e =>
      refine ⟨?_, .inl ⟨e, rfl, ?_⟩⟩ <;> simp [Config.from_env, hu, ha, hw]
    | ok n =>
      refine ⟨?_, .inr ⟨n, rfl, ?_⟩⟩ <;> simp [Config.from_env, hu, ha, hw, htok]

/-- Witness for the amended C2 at a concrete environment: author name set,
both token sources falsy — the configuration error with no identity call. -/
theorem from_env_missing_token_behavior_witness :
    Config.from_env envNoTokenWithAuthor = (.valueError "HF_TOKEN must be set", 0) :=
  (from_env_missing_token_behavior envNoTokenWithAuthor ⟨rfl, rfl⟩).1 rfl

/-- C4 counterexample: a concrete call on an existing directory in which the
`shutil.rmtree(ignore_errors=True)` cleanup fails (for instance a permission
error): `upload_model` still returns success — the cleanup error is
swallowed — yet the per-model output directory still exists afterward,
refuting the claim that it no longer exists after every call. -/
theorem upload_model_cleanup_failure_cex :
    (upload_model cfg0 "org/model-x" (some dirX) pushOk false).1 = none ∧
    (upload_model cfg0 "org/model-x" (some dirX) pushOk false).2.1 ≠ none := by
  constructor
  · rfl
  · decide

/-- C4 (amended): for every call to `upload_model`, in the success and the
error-return case alike, the cleanup is attempted and its outcome never
changes the returned value or the push calls made (cleanup errors are
suppressed rather than propagated), and whenever the cleanup succeeds in
removing the tree the per-model output directory no longer exists
afterward; when the cleanup itself fails the directory may remain. -/
theorem upload_model_cleanup_behavior (cfg : Config) (mid : String)
    (d : Option Dir) (push : PushCall → Except String Unit) :
    (upload_model cfg mid d push true).2.1 = none ∧
    (upload_model cfg mid d push false).1 = (upload_model cfg mid d push true).1 ∧
    (upload_model cfg mid d push false).2.2 = (upload_model cfg mid d push true).2.2 := by
  exact ⟨rfl, rfl, rfl⟩

/-- C3 counterexample: in a directory where a top-level regular file named
`onnx` sits beside `model.onnx`, the subfolder creation raises
`FileExistsError` (`exist_ok=True` only tolerates an existing directory),
so `upload_model` returns an error, makes no push, and relocates nothing —
`model.onnx` carries the target suffix yet stays at the top level (the
failing-cleanup oracle exposes the unchanged directory) — refuting the
claim's universal quantification over directory states. -/
theorem upload_moves_exactly_onnx_files_cex :
    ("model.onnx" ∈ dirBlocked.files ∧ pySuffix "model.onnx" = ".onnx") ∧
    (upload_model cfg0 "org/model-x" (some dirBlocked) pushOk false).1 ≠ none ∧
    (upload_model cfg0 "org/model-x" (some dirBlocked) pushOk false).2.1
      = some dirBlocked ∧
    (upload_model cfg0 "org/model-x" (some dirBlocked) pushOk false).2.2 = [] := by
  refine ⟨⟨by decide, by decide⟩, by decide, by decide, by decide⟩

/-- C3 (amended): for every state of the per-model output directory in
which the directory exists and no top-level regular file is named `onnx`
(otherwise the subfolder creation raises and nothing is relocated), the
move step of `upload_model` relocates into the `onnx` subfolder exactly the
top-level regular files whose `pathlib` suffix is `.onnx` (replacing
same-named files already there), leaves every other top-level file in
place, does not discover files nested in subdirectories (every subdirectory
other than `onnx` is untouched, contents included), and the single push of
`upload_model` receives precisely the resulting subfolder contents. -/
theorem upload_moves_exactly_onnx_files (d : Dir)
    (hfile : d.files.contains "onnx" = false) :
    (∀ f, f ∈ (moveOnnxFiles (ensureOnnxDir d)).files ↔
        (f ∈ d.files ∧ pySuffix f ≠ ".onnx")) ∧
    (∀ f, f ∈ (moveOnnxFiles (ensureOnnxDir d)).onnxContents ↔
        ((f ∈ d.onnxContents ∧ f ∉ movedOnnxFiles d) ∨
         (f ∈ d.files ∧ pySuffix f = ".onnx"))) ∧
    (∀ name cs, name ≠ "onnx" →
        (((name, cs) ∈ (moveOnnxFiles (ensureOnnxDir d)).dirs) ↔
         ((name, cs) ∈ d.dirs))) ∧
    (∀ cfg mid push rm,
        ((upload_model cfg mid (some d) push rm).2.2).map PushCall.contents
          = [(moveOnnxFiles (ensureOnnxDir d)).onnxContents]) := by
  refine ⟨?_, ?_, ?_, ?_⟩
  · intro f
    simp [moveOnnxFiles, ensureOnnxDir_files, List.mem_filter]
  · intro f
    rw [moveOnnxFiles_onnxContents (ensureOnnxDir d) (ensureOnnxDir_contains d),
        ensureOnnxDir_onnxContents, movedOnnxFiles_ensure]
    simp [List.mem_filter, mem_movedOnnxFiles]
    tauto
  · intro name cs hne
    have hup : ∀ l : List (String × List String),
        ((name, cs) ∈ l.map (fun p =>
          (p.1, if p.1 == "onnx" then
              p.2.filter (fun f => !((movedOnnxFiles (ensureOnnxDir d)).contains f))
                ++ movedOnnxFiles (ensureOnnxDir d)
            else p.2))) ↔ ((name, cs) ∈ l) := by
      intro l
      rw [List.mem_map]
      constructor
      · rintro ⟨p, hp, he⟩
        have h1 : p.1 = name := congrArg Prod.fst he
        have h2 : (p.1 == "onnx") = false := by
          simp [h1]
          exact hne
        rw [h2] at he
        simp only [Bool.false_eq_true, if_false] at he
        rwa [show p = (name, cs) from he ▸ rfl] at hp
      · intro hm
        refine ⟨(name, cs), hm, ?_⟩
        have h2 : (name == "onnx") = false := by
          simp
          exact hne
        simp [h2]
    constructor
    · intro hmem
      have := (hup (ensureOnnxDir d).dirs).mp hmem
      unfold ensureOnnxDir at this
      split at this
      · exact this
      · rcases List.mem_append.mp this with h1 | h1
        · exact h1
        · exfalso
          have : name = "onnx" := congrArg Prod.fst (List.mem_singleton.mp h1)
          exact hne this
    · intro hmem
      refine (hup (ensureOnnxDir d).dirs).mpr ?_
      unfold ensureOnnxDir
      split
      · exact hmem
      · exact List.mem_append.mpr (.inl hmem)
  · intro cfg mid push rm
    cases hp : push
        { folder_path := onnx_folder_path cfg mid, repo_id := mid,
          path_in_repo := "onnx",
          contents := (moveOnnxFiles (ensureOnnxDir d)).onnxContents } with
    | error e =>
      simp [upload_model, hp, show "onnx" ∉ d.files by simpa using hfile]
    | ok u =>
      simp [upload_model, hp, show "onnx" ∉ d.files by simpa using hfile]

/-- Witness for C3 at a concrete directory: the artifact moves into the
subfolder, the other top-level file stays, the unrelated subdirectory (with
its nested `.onnx` file) is untouched, and the push sees the subfolder. -/
theorem upload_moves_exactly_onnx_files_witness :
    ("readme.txt" ∈ (moveOnnxFiles (ensureOnnxDir dirX)).files) ∧
    ("model.onnx" ∈ (moveOnnxFiles (ensureOnnxDir dirX)).onnxContents) ∧
    (("sub", ["nested.onnx"]) ∈ (moveOnnxFiles (ensureOnnxDir dirX)).dirs) ∧
    ((upload_model cfg0 "org/model-x" (some dirX) pushOk true).2.2).map PushCall.contents
      = [(moveOnnxFiles (ensureOnnxDir dirX)).onnxContents] := by
  have h := upload_moves_exactly_onnx_files dirX (by decide)
  exact ⟨(h.1 "readme.txt").mpr (by decide),
         (h.2.1 "model.onnx").mpr (by decide),
         ((h.2.2.1 "sub" ["nested.onnx"]) (by decide)).mpr (by decide),
         h.2.2.2 cfg0 "org/model-x" pushOk true⟩

/-- C6: for every successful upload (the directory exists, nothing blocks
the subfolder creation, and every push succeeds), `upload_model` calls the
remote push exactly once, with the target repository identifier equal to
the input model identifier and the destination path segment `"onnx"`, and
returns no error. -/
theorem upload_push_once_success (cfg : Config) (mid : String) (d : Dir)
    (push : PushCall → Except String Unit) (rm : Bool)
    (hfile : d.files.contains "onnx" = false)
    (hpush : ∀ c, push c = .ok ()) :
    upload_model cfg mid (some d) push rm =
      (none,
       if rm then none else some (moveOnnxFiles (ensureOnnxDir d)),
       [{ folder_path := onnx_folder_path cfg mid, repo_id := mid,
          path_in_repo := "onnx",
          contents := (moveOnnxFiles (ensureOnnxDir d)).onnxContents }]) := by
  simp [upload_model, hpush, show "onnx" ∉ d.files by simpa using hfile]

/-- Witness for C6: the end-to-end scenario of the spec — model identifier
`org/model-x`, directory holding `model.onnx` — one push with repo id
`org/model-x` and path segment `onnx`, no error, directory gone. -/
theorem upload_push_once_success_witness :
    upload_model cfg0 "org/model-x" (some dirX) pushOk true =
      (none, none,
       [{ folder_path := "transformers.js/models/org/model-x/onnx",
          repo_id := "org/model-x", path_in_repo := "onnx",
          contents := ["model.onnx"] }]) := by
  rw [upload_push_once_success cfg0 "org/model-x" dirX pushOk true (by decide)
    (fun c => rfl)]
  decide

/-- C10 counterexample: a directory whose only entry is a regular file
named `onnx` exists and holds zero files with the `.onnx` suffix, yet
`upload_model` does short-circuit to an error — the subfolder creation
raises `FileExistsError` and no push is attempted — refuting the claim at
this in-scope state. -/
theorem upload_no_onnx_still_pushes_cex :
    movedOnnxFiles dirOnnxFile = [] ∧
    (upload_model cfg0 "org/model-x" (some dirOnnxFile) pushOk true).1 ≠ none ∧
    (upload_model cfg0 "org/model-x" (some dirOnnxFile) pushOk true).2.2 = [] := by
  refine ⟨by decide, by decide, by decide⟩

/-- C10 (amended): for every per-model output directory that exists, holds
zero top-level files with the `.onnx` suffix, and has no top-level regular
file named `onnx` (which would make the subfolder creation raise),
`upload_model` does not short-circuit: the `onnx` subfolder is present
after the step (created when absent), the remote push is attempted with
that possibly empty subfolder — its contents are exactly whatever the
subfolder already held — and the call returns success when the push
succeeds. -/
theorem upload_no_onnx_still_pushes (cfg : Config) (mid : String) (d : Dir)
    (push : PushCall → Except String Unit) (rm : Bool)
    (hno : movedOnnxFiles d = [])
    (hfile : d.files.contains "onnx" = false)
    (hpush : ∀ c, push c = .ok ()) :
    ((ensureOnnxDir d).dirs.map Prod.fst).contains "onnx" = true ∧
    (upload_model cfg mid (some d) push rm).1 = none ∧
    (upload_model cfg mid (some d) push rm).2.2 =
      [{ folder_path := onnx_folder_path cfg mid, repo_id := mid,
         path_in_repo := "onnx", contents := d.onnxContents }] := by
  have hc : (moveOnnxFiles (ensureOnnxDir d)).onnxContents = d.onnxContents := by
    rw [moveOnnxFiles_onnxContents (ensureOnnxDir d) (ensureOnnxDir_contains d),
        ensureOnnxDir_onnxContents, movedOnnxFiles_ensure, hno]
    simp
  refine ⟨ensureOnnxDir_contains d, ?_, ?_⟩ <;>
    simp [upload_model, hpush, hc, show "onnx" ∉ d.files by simpa using hfile]

/-- Witness for C10: a directory with only `config.json` still produces one
successful push of the freshly created empty subfolder. -/
theorem upload_no_onnx_still_pushes_witness :
    ((ensureOnnxDir dirNoOnnx).dirs.map Prod.fst).contains "onnx" = true ∧
    (upload_model cfg0 "org/model-x" (some dirNoOnnx) pushOk true).1 = none ∧
    (upload_model cfg0 "org/model-x" (some dirNoOnnx) pushOk true).2.2 =
      [{ folder_path := onnx_folder_path cfg0 "org/model-x", repo_id := "org/model-x",
         path_in_repo := "onnx", contents := [] }] :=
  upload_no_onnx_still_pushes cfg0 "org/model-x" dirNoOnnx pushOk true (by decide)
    (by decide) (fun c => rfl)
